import Mathlib

/-!
Verification of the Global-Economy-Indicators analysis pipeline
(`Project1.py`) against its natural-language specification.

The pipeline is shallowly embedded: pandas dataframes become Lean lists of
records, numeric columns become `ℚ` (the source works in IEEE doubles; the
claims under study concern exact comparisons, row bookkeeping and
raise-versus-return behaviour, none of which depend on rounding), and the
IEEE non-finite results that pandas produces on division by zero are made
explicit through the small value type `RVal` below.
-/

/-- Result value of a pandas float column entry: either a finite number, a
signed infinity, or NaN.  Pandas (numpy) division by zero silently yields
`inf`/`-inf`/`nan`; this type records exactly that, for finite operands. -/
inductive RVal where
  | fin (q : ℚ)
  | inf (pos : Bool)
  | nan
  deriving DecidableEq, Repr

/-- IEEE-style division as numpy performs it on float columns (finite,
infinite and NaN operands; zero is unsigned, as all denominators in the
source data are produced by exact parsing, not by underflow). -/
def RVal.div : RVal → RVal → RVal
  | .fin a, .fin b =>
      if b = 0 then (if a = 0 then .nan else .inf (decide (0 < a)))
      else .fin (a / b)
  | .fin _, .inf _ => .fin 0
  | .inf s, .fin b =>
      if b = 0 then .inf s else .inf (s == decide (0 < b))
  | .inf _, .inf _ => .nan
  | .nan, _ => .nan
  | _, .nan => .nan

/-- IEEE-style multiplication for the same value model. -/
def RVal.mul : RVal → RVal → RVal
  | .fin a, .fin b => .fin (a * b)
  | .fin a, .inf s => if a = 0 then .nan else .inf (s == decide (0 < a))
  | .inf s, .fin b => if b = 0 then .nan else .inf (s == decide (0 < b))
  | .inf s, .inf t => .inf (s == t)
  | .nan, _ => .nan
  | _, .nan => .nan

/-- A raw input row after `pd.read_csv` and column selection/renaming
(`data_preparation`, `Project1.py` lines 24-37): the 8 retained columns,
each possibly missing (pandas NaN / absent cell), with the raw verbose
column labels shortened to the renamed ones. -/
structure RawRow where
  country : Option String
  year : Option Int
  population : Option ℚ
  gdp : Option ℚ
  per_capita_gni : Option ℚ
  agriculture : Option ℚ
  manufacturing : Option ℚ
  transport_comm : Option ℚ
  deriving DecidableEq, Repr

/-- A cleaned row: all 8 retained fields present (`df_cleaned` after
`dropna`, `Project1.py` line 38). -/
structure CleanRow where
  country : String
  year : Int
  population : ℚ
  gdp : ℚ
  per_capita_gni : ℚ
  agriculture : ℚ
  manufacturing : ℚ
  transport_comm : ℚ
  deriving DecidableEq, Repr

/-- `dropna` keeps a row exactly when it succeeds here: all 8 retained
fields present. -/
def RawRow.toClean? (r : RawRow) : Option CleanRow :=
  match r.country, r.year, r.population, r.gdp, r.per_capita_gni,
        r.agriculture, r.manufacturing, r.transport_comm with
  | some c, some y, some p, some g, some n, some a, some m, some t =>
      some ⟨c, y, p, g, n, a, m, t⟩
  | _, _, _, _, _, _, _, _ => none

/-- Presence check for the 8 retained fields of a raw row (the condition
under which pandas `dropna` keeps the row). -/
def RawRow.complete (r : RawRow) : Bool :=
  r.country.isSome && r.year.isSome && r.population.isSome && r.gdp.isSome &&
  r.per_capita_gni.isSome && r.agriculture.isSome && r.manufacturing.isSome &&
  r.transport_comm.isSome

/-- Placeholder clean row, used only to express `Option.getD` projections
in theorem statements (never reached on complete rows). -/
def defaultCleanRow : CleanRow := ⟨"", 0, 0, 0, 0, 0, 0, 0⟩

/-- The cleaned row extracted from a complete raw row. -/
def RawRow.cleanOfComplete (r : RawRow) : CleanRow :=
  r.toClean?.getD defaultCleanRow

/-- Column selection, renaming and `dropna` of `data_preparation`
(`Project1.py` lines 24-38): keep exactly the rows with all 8 retained
fields present. -/
def prepare (table : List RawRow) : List CleanRow :=
  table.filterMap RawRow.toClean?

/-- `data_preparation` (`Project1.py` lines 16-40).  The file system is
embedded as a lookup from paths to parsed tables; a path that does not
resolve raises `FileNotFoundError`, which the function catches, reporting
the error and returning `None` (here `none`). -/
def data_preparation (fs : String → Option (List RawRow)) (path : String) :
    Option (List CleanRow) :=
  match fs path with
  | none => none
  | some table => some (prepare table)

/-- `classify_income_group` (`Project1.py` lines 44-52): piecewise bands on
per-capita GNI, each band closed on its upper bound. -/
def classify_income_group (gni : ℚ) : String :=
  if gni ≤ 1145 then "Low income"
  else if gni ≤ 4515 then "Lower middle income"
  else if gni ≤ 14005 then "Upper middle income"
  else "High income"

/-- An enriched row: the 8 raw fields plus the 5 derived columns added by
`feature_engineering`.  The derived ratio columns carry `RVal` because the
source computes them by float division, which can produce non-finite
values when GDP (or Population) is zero. -/
structure EnrichedRow where
  country : String
  year : Int
  population : ℚ
  gdp : ℚ
  per_capita_gni : ℚ
  agriculture : ℚ
  manufacturing : ℚ
  transport_comm : ℚ
  income_group : String
  gdp_per_capita : RVal
  agriculture_share : RVal
  manufacturing_share : RVal
  transport_comm_share : RVal
  deriving DecidableEq, Repr

/-- The row-wise body of `feature_engineering` (`Project1.py` lines 54-58):
income classification from GNI and the four division-derived columns. -/
def enrich_row (r : CleanRow) : EnrichedRow :=
  { country := r.country
    year := r.year
    population := r.population
    gdp := r.gdp
    per_capita_gni := r.per_capita_gni
    agriculture := r.agriculture
    manufacturing := r.manufacturing
    transport_comm := r.transport_comm
    income_group := classify_income_group r.per_capita_gni
    gdp_per_capita := RVal.div (.fin r.gdp) (.fin r.population)
    agriculture_share :=
      RVal.mul (RVal.div (.fin r.agriculture) (.fin r.gdp)) (.fin 100)
    manufacturing_share :=
      RVal.mul (RVal.div (.fin r.manufacturing) (.fin r.gdp)) (.fin 100)
    transport_comm_share :=
      RVal.mul (RVal.div (.fin r.transport_comm) (.fin r.gdp)) (.fin 100) }

/-- `feature_engineering` (`Project1.py` lines 42-60): the five column
assignments are element-wise over rows, so the frame transform is a map of
`enrich_row` over the cleaned rows. -/
def feature_engineering (df : List CleanRow) : List EnrichedRow :=
  df.map enrich_row

/-!
## Cross-sectional OLS (`perform_regression`) and the panel engine

`perform_regression` (`Project1.py` lines 62-73) extracts `GDP_per_capita`
as the response and the three share columns (with a prepended constant) as
the design matrix, and calls `sm.OLS(y, X).fit()`.  The statsmodels fit —
outside this repository — uses the Moore-Penrose pseudoinverse by default
and therefore returns a parameter vector for every design matrix,
including rank-deficient ones; it never raises on collinearity.  We embed
that fit as a total exact least-squares solver over ℚ: Gauss-Jordan
elimination on the (always consistent) normal equations, free variables
set to 0.  On full-rank designs this is the unique OLS solution; on
rank-deficient designs it is a least-squares solution (statsmodels picks
the minimum-norm one; the claims under study depend only on the fit being
total, not on which of the equally-fitting vectors is reported).
-/

/-- A regression-ready row: entity key plus the finite numeric values of
the response (`GDP_per_capita`) and the three share regressors. -/
structure PRow where
  country : String
  year : Int
  y : ℚ
  x1 : ℚ
  x2 : ℚ
  x3 : ℚ
  deriving DecidableEq, Repr

/-- Extracts the finite numeric view of an enriched dataset that the two
regression engines consume; `none` when some derived value is non-finite
(non-finite floats are outside the modelled domain of the numeric
libraries). -/
def toPRows : List EnrichedRow → Option (List PRow)
  | [] => some []
  | r :: rest =>
      match r.gdp_per_capita, r.agriculture_share, r.manufacturing_share,
            r.transport_comm_share with
      | .fin y, .fin a, .fin m, .fin t =>
          (toPRows rest).map (fun l => ⟨r.country, r.year, y, a, m, t⟩ :: l)
      | _, _, _, _ => none

/-- Entry `i j` of `XᵀX` as a sum over the rows of the design matrix. -/
def xtx (X : List (List ℚ)) (k : Nat) : List (List ℚ) :=
  (List.range k).map (fun i =>
    (List.range k).map (fun j =>
      (X.map (fun r => r.getD i 0 * r.getD j 0)).sum))

/-- The vector `Xᵀy`. -/
def xty (X : List (List ℚ)) (y : List ℚ) (k : Nat) : List ℚ :=
  (List.range k).map (fun i =>
    ((X.zip y).map (fun p => p.1.getD i 0 * p.2)).sum)

/-- One Gauss-Jordan step on column `j`: pick a row with a nonzero entry
in column `j` as pivot, normalise it, and eliminate column `j` from the
remaining rows and from the previously found pivot rows. -/
def gaussStep (j : Nat) (st : List (Nat × List ℚ) × List (List ℚ)) :
    List (Nat × List ℚ) × List (List ℚ) :=
  match st.2.find? (fun r => r.getD j 0 != 0) with
  | none => st
  | some r =>
      let v := r.getD j 0
      let p := r.map (· / v)
      let rest := (st.2.erase r).map
        (fun q => q.zipWith (fun a b => a - q.getD j 0 * b) p)
      let piv := st.1.map
        (fun ip => (ip.1, ip.2.zipWith (fun a b => a - ip.2.getD j 0 * b) p))
      (piv ++ [(j, p)], rest)

/-- Gauss-Jordan solver for an augmented `n × (n+1)` system; on a
consistent system it returns a solution with the free variables set to 0. -/
def gaussSolve (n : Nat) (rows : List (List ℚ)) : List ℚ :=
  let st := (List.range n).foldl (fun s j => gaussStep j s) ([], rows)
  (List.range n).map (fun j =>
    match st.1.find? (fun ip => ip.1 == j) with
    | some ip => ip.2.getD n 0
    | none => 0)

/-- Exact least-squares fit of `y` on the `k`-column design `X` through the
normal equations (the total pinv-style fit described above). -/
def lstsq (k : Nat) (X : List (List ℚ)) (y : List ℚ) : List ℚ :=
  gaussSolve k (List.zipWith (fun row b => row ++ [b]) (xtx X k) (xty X y k))

/-- Fitted cross-sectional OLS model: parameter vector in the column order
`[const, Agriculture_Share, Manufacturing_Share, Transport_Comm_Share]`. -/
structure OLSModel where
  params : List ℚ
  deriving DecidableEq, Repr

/-- The design-matrix row of one observation: intercept column first, as
produced by `sm.add_constant` (`Project1.py` line 67). -/
def designRow (r : PRow) : List ℚ :=
  [1, r.x1, r.x2, r.x3]

/-- `perform_regression` (`Project1.py` lines 62-73): pooled OLS of
`GDP_per_capita` on the three shares with intercept.  The source contains
no degeneracy check of any kind: the statsmodels fit is total, so the
function returns a model whenever the data is finite. -/
def perform_regression (df : List EnrichedRow) : Option OLSModel :=
  (toPRows df).map (fun rows =>
    ⟨lstsq 4 (rows.map designRow) (rows.map (·.y))⟩)

/-- Rows of one entity (country) in a regression-ready panel. -/
def entityRows (l : List PRow) (c : String) : List PRow :=
  l.filter (fun r => decide (r.country = c))

/-- Number of observations of one entity. -/
def entityCount (l : List PRow) (c : String) : Nat :=
  (entityRows l c).length

/-- Arithmetic mean of a list of rationals (0 for the empty list). -/
def listMean (vals : List ℚ) : ℚ :=
  vals.sum / vals.length

/-- Within transformation, response: the observation's `y` minus its
entity's mean `y` over the ambient panel `l`. -/
def demeanY (l : List PRow) (r : PRow) : ℚ :=
  r.y - listMean ((entityRows l r.country).map (·.y))

/-- Within transformation, regressors: the three share values minus their
entity means over the ambient panel `l` (no intercept column, which would
vanish under demeaning). -/
def demeanX (l : List PRow) (r : PRow) : List ℚ :=
  [r.x1 - listMean ((entityRows l r.country).map (·.x1)),
   r.x2 - listMean ((entityRows l r.country).map (·.x2)),
   r.x3 - listMean ((entityRows l r.country).map (·.x3))]

/-- The panel rows that survive the single-observation-entity exclusion:
entities with at least two observations. -/
def keptRows (l : List PRow) : List PRow :=
  l.filter (fun r => decide (2 ≤ entityCount l r.country))

/-- Fitted fixed-effects model: slope vector for the three shares, number
of entities used, and number of observations used. -/
structure PanelFit where
  params : List ℚ
  nEntities : Nat
  nObs : Nat
  deriving DecidableEq, Repr

/-- Failure conditions of the panel engine. -/
inductive PanelError where
  | duplicatePanelKey
  | nonFiniteData
  deriving DecidableEq, Repr

/-- Modelled from the spec: the estimation core of `PanelOLS(dependent,
exog, entity_effects=True).fit()` (the `linearmodels` library, not part of
this repository).  Per spec §4.4 and §7(e): exclude entities with a single
observation, apply the within (entity-demeaning) transformation to the
response and the three regressors, and run OLS without an intercept on the
demeaned data. -/
def panelCore (rows : List PRow) : PanelFit :=
  let kept := keptRows rows
  { params := lstsq 3 (kept.map (demeanX kept)) (kept.map (demeanY kept))
    nEntities := (kept.map (·.country)).eraseDups.length
    nObs := kept.length }

/-- `perform_panel_analysis` (`Project1.py` lines 75-93).  Modelled from
the spec where the behaviour lives inside `linearmodels`: per spec §4.4
and §7(d), input with duplicate (Country, Year) keys is rejected before
any fitting work; the fitting core is `panelCore` above.  Enriched rows
with non-finite derived values are outside the modelled domain. -/
def perform_panel_analysis (df : List EnrichedRow) : Except PanelError PanelFit :=
  if (df.map (fun r => (r.country, r.year))).Nodup then
    match toPRows df with
    | none => .error .nonFiniteData
    | some rows => .ok (panelCore rows)
  else .error .duplicatePanelKey

/-!
## Comparable-country selection (`get_comparable_countries`)
-/

/-- Stable de-duplication keeping first occurrences, with an accumulator
of already-seen elements; `dedupFirstAux [] l` models both pandas
`drop_duplicates()` (on rows) and `Series.unique()` (on values), which
keep the first occurrence of each distinct element in order. -/
def dedupFirstAux [DecidableEq α] (seen : List α) : List α → List α
  | [] => []
  | a :: l =>
      if a ∈ seen then dedupFirstAux seen l
      else a :: dedupFirstAux (a :: seen) l

/-- The distinct country names of the dataset in the order produced by
`df.groupby('Country')` (`Project1.py` line 99), which sorts the group
keys lexicographically. -/
def countriesSorted (df : List EnrichedRow) : List String :=
  List.insertionSort (· ≤ ·) (dedupFirstAux [] (df.map (·.country)))

/-- Mean population of one country across its observations
(`df.groupby('Country')['Population'].mean()`, `Project1.py` line 99). -/
def meanPop (df : List EnrichedRow) (c : String) : ℚ :=
  listMean ((df.filter (fun r => decide (r.country = c))).map (·.population))

/-- The `Country` column of `comparable_countries_df` (`Project1.py` lines
101-106): countries whose mean population lies in the closed band
`[10000000, 50000000]`, in groupby (sorted) order. -/
def comparable_countries (df : List EnrichedRow) : List String :=
  (countriesSorted df).filter
    (fun c => decide (10000000 ≤ meanPop df c ∧ meanPop df c ≤ 50000000))

/-- `country_income_map` (`Project1.py` line 108):
`df[['Country', 'Income_Group']].drop_duplicates()` keeps the first
occurrence of each distinct (Country, Income_Group) pair — a country that
carries several labels keeps one row per distinct label. -/
def country_income_map (df : List EnrichedRow) : List (String × String) :=
  dedupFirstAux [] (df.map (fun r => (r.country, r.income_group)))

/-- The merge of `Project1.py` line 109 (`pd.merge(..., on='Country',
how='left')`): for each comparable country in left order, one output row
per matching row of `country_income_map`, in right order.  Every
comparable country has at least one match, so no NaN rows arise. -/
def merged_countries (df : List EnrichedRow) : List (String × String) :=
  (comparable_countries df).flatMap
    (fun c => (country_income_map df).filter (fun p => decide (p.1 = c)))

/-- Per income group, the `['Country'].unique()` column of the merged
frame restricted to that group (`Project1.py` line 115). -/
def group_countries (df : List EnrichedRow) (g : String) : List String :=
  dedupFirstAux []
    (((merged_countries df).filter (fun p => decide (p.2 = g))).map (·.1))

/-- The fixed group priority order (`Project1.py` line 112). -/
def income_group_order : List String :=
  ["High income", "Upper middle income", "Lower middle income", "Low income"]

/-- `get_comparable_countries` (`Project1.py` lines 95-119): up to 3
countries per income group, groups concatenated in priority order.  The
source guards `extend` behind `len(group_countries) > 0`, which is a
no-op: extending by an empty list adds nothing. -/
def get_comparable_countries (df : List EnrichedRow) : List String :=
  income_group_order.flatMap (fun g => (group_countries df g).take 3)

/-- The path hard-coded in `main` (`Project1.py` line 252). -/
def mainCsvPath : String := "Global Economy Indicators.csv"

/-- The unconditional part of `main` (`Project1.py` lines 249-260): load,
stop (returning nothing) when the loader reports a missing file, otherwise
enrich and select comparable countries.  The interactive menu loop that
follows only dispatches on the already-computed enriched data. -/
def main_pipeline (fs : String → Option (List RawRow)) :
    Option (List EnrichedRow × List String) :=
  match data_preparation fs mainCsvPath with
  | none => none
  | some df =>
      let e := feature_engineering df
      some (e, get_comparable_countries e)

/-!
## Concrete datasets used by witnesses and counterexamples
-/

/-- Enriched dataset whose second regressor is exactly twice the first on
every row (the spec's own collinearity example); all derived values
finite. -/
def df1 : List EnrichedRow :=
  [⟨"P1", 2000, 20, 100, 500, 1, 2, 1, "Low income", .fin 1, .fin 1, .fin 2, .fin 1⟩,
   ⟨"P2", 2000, 20, 100, 500, 1, 2, 1, "Low income", .fin 2, .fin 2, .fin 4, .fin 1⟩,
   ⟨"P3", 2000, 20, 100, 500, 1, 2, 1, "Low income", .fin 3, .fin 3, .fin 6, .fin 2⟩,
   ⟨"P4", 2000, 20, 100, 500, 1, 2, 1, "Low income", .fin 4, .fin 4, .fin 8, .fin 2⟩]

/-- The regression-ready view of `df1`. -/
def rows1 : List PRow :=
  [⟨"P1", 2000, 1, 1, 2, 1⟩, ⟨"P2", 2000, 2, 2, 4, 1⟩,
   ⟨"P3", 2000, 3, 3, 6, 2⟩, ⟨"P4", 2000, 4, 4, 8, 2⟩]

/-- A cleaned row with GDP zero, positive agriculture, negative
manufacturing and zero transport value. -/
def r2c : CleanRow := ⟨"Zz", 2000, 10, 0, 300, 5, -3, 0⟩

/-- What `feature_engineering` produces on `r2c`: the row survives, with
IEEE non-finite shares. -/
def e2c : EnrichedRow :=
  ⟨"Zz", 2000, 10, 0, 300, 5, -3, 0, "Low income", .fin 0, .inf true, .inf false, .nan⟩

/-- One country carrying two different income labels in different years,
mean population inside the selection band. -/
def df4 : List EnrichedRow :=
  [⟨"Aaa", 2000, 20000000, 100, 20000, 1, 2, 3, "High income", .fin 0, .fin 0, .fin 0, .fin 0⟩,
   ⟨"Aaa", 2001, 20000000, 100, 10000, 1, 2, 3, "Upper middle income", .fin 0, .fin 0, .fin 0, .fin 0⟩]

/-- Country "Bb" appears before country "Aa" in row order; "Aa"
additionally carries a second income label. -/
def df5 : List EnrichedRow :=
  [⟨"Bb", 2000, 20000000, 100, 20000, 1, 2, 3, "High income", .fin 0, .fin 0, .fin 0, .fin 0⟩,
   ⟨"Aa", 2000, 20000000, 100, 20000, 1, 2, 3, "High income", .fin 0, .fin 0, .fin 0, .fin 0⟩,
   ⟨"Aa", 2001, 20000000, 100, 10000, 1, 2, 3, "Upper middle income", .fin 0, .fin 0, .fin 0, .fin 0⟩]

/-- Two observations sharing the (Country, Year) key ("Cc", 2000). -/
def df6 : List EnrichedRow :=
  [⟨"Cc", 2000, 20, 100, 500, 1, 2, 3, "Low income", .fin 5, .fin 1, .fin 2, .fin 3⟩,
   ⟨"Cc", 2000, 30, 200, 600, 2, 3, 4, "Low income", .fin 6, .fin 1, .fin 1, .fin 2⟩]

/-- A panel with one two-observation entity ("Dd") and one singleton
entity ("Ee"); keys unique, derived values finite. -/
def df7 : List EnrichedRow :=
  [⟨"Dd", 2000, 20, 100, 500, 1, 2, 3, "Low income", .fin 1, .fin 1, .fin 0, .fin 2⟩,
   ⟨"Dd", 2001, 20, 100, 500, 1, 2, 3, "Low income", .fin 2, .fin 3, .fin 1, .fin 0⟩,
   ⟨"Ee", 2000, 20, 100, 500, 1, 2, 3, "Low income", .fin 5, .fin 1, .fin 1, .fin 1⟩]

/-- The regression-ready view of `df7`. -/
def rows7 : List PRow :=
  [⟨"Dd", 2000, 1, 1, 0, 2⟩, ⟨"Dd", 2001, 2, 3, 1, 0⟩, ⟨"Ee", 2000, 5, 1, 1, 1⟩]

/-- A file system on which no path resolves. -/
def fsNone : String → Option (List RawRow) := fun _ => none

/-- A raw row with all 8 retained fields present. -/
def rawComplete9 : RawRow :=
  ⟨some "Gg", some 2000, some 5, some 50, some 900, some 1, some 2, some 3⟩

/-- A raw row missing its GDP field. -/
def rawIncomplete9 : RawRow :=
  ⟨some "Hh", some 2000, some 5, none, some 900, some 1, some 2, some 3⟩

/-- A two-row input table: one complete row, one incomplete row. -/
def table9 : List RawRow := [rawComplete9, rawIncomplete9]

/-- A file system resolving every path to `table9`. -/
def fs9 : String → Option (List RawRow) := fun _ => some table9

/-- The cleaned form of `rawComplete9`. -/
def clean9 : CleanRow := ⟨"Gg", 2000, 5, 50, 900, 1, 2, 3⟩

/-- A one-row cleaned dataset. -/
def df10 : List CleanRow := [⟨"Ff", 2000, 4, 8, 2000, 1, 2, 3⟩]

/-!
## Supporting lemmas
-/

theorem get_map_eq {α β : Type} (f : α → β) (l : List α) (i : Nat)
    (h : i < l.length) (h2 : i < (l.map f).length) :
    (l.map f).get ⟨i, h2⟩ = f (l.get ⟨i, h⟩) := by
  simp

theorem toClean_isSome_eq_complete (r : RawRow) :
    r.toClean?.isSome = r.complete := by
  obtain ⟨c, y, p, g, n, a, m, t⟩ := r
  cases c <;> cases y <;> cases p <;> cases g <;> cases n <;> cases a <;>
    cases m <;> cases t <;> rfl

theorem filterMap_eq_filter_map {α β : Type} (f : α → Option β) (p : α → Bool)
    (hf : ∀ a, (f a).isSome = p a) (d : β) (l : List α) :
    l.filterMap f = (l.filter p).map (fun a => (f a).getD d) := by
  induction l with
  | nil => rfl
  | cons a t ih =>
    rw [List.filterMap_cons, List.filter_cons]
    cases hfa : f a with
    | none =>
      have : p a = false := by rw [← hf a, hfa]; rfl
      rw [this]
      simpa using ih
    | some b =>
      have : p a = true := by rw [← hf a, hfa]; rfl
      rw [this]
      simp [hfa, ih]

theorem prepare_eq_filter_complete (table : List RawRow) :
    prepare table = (table.filter RawRow.complete).map RawRow.cleanOfComplete := by
  unfold prepare RawRow.cleanOfComplete
  exact filterMap_eq_filter_map _ _ toClean_isSome_eq_complete defaultCleanRow table

/-!
## Claim theorems
-/

/-- C3: for every rational GNI value, `classify_income_group` returns
"Low income" when gni ≤ 1145, "Lower middle income" when 1145 < gni ≤
4515, "Upper middle income" when 4515 < gni ≤ 14005, and "High income"
when gni > 14005; each boundary value belongs to the lower band. -/
theorem classify_income_group_bands (gni : ℚ) :
    (gni ≤ 1145 → classify_income_group gni = "Low income") ∧
    (1145 < gni → gni ≤ 4515 → classify_income_group gni = "Lower middle income") ∧
    (4515 < gni → gni ≤ 14005 → classify_income_group gni = "Upper middle income") ∧
    (14005 < gni → classify_income_group gni = "High income") := by
  unfold classify_income_group
  split_ifs with h1 h2 h3 <;>
    refine ⟨fun h => ?_, fun h h' => ?_, fun h h' => ?_, fun h => ?_⟩ <;>
    first
    | rfl
    | linarith

/-- Witness for C3: the four bands at and just above their boundaries. -/
theorem classify_income_group_bands_witness :
    classify_income_group 1145 = "Low income" ∧
    classify_income_group 4515 = "Lower middle income" ∧
    classify_income_group 14005 = "Upper middle income" ∧
    classify_income_group 14006 = "High income" :=
  ⟨(classify_income_group_bands 1145).1 (by norm_num),
   (classify_income_group_bands 4515).2.1 (by norm_num) (by norm_num),
   (classify_income_group_bands 14005).2.2.1 (by norm_num) (by norm_num),
   (classify_income_group_bands 14006).2.2.2 (by norm_num)⟩

/-- C8: a path that does not resolve makes `data_preparation` return the
null dataset, and when the main input file is missing the pipeline stops:
no enrichment and no selection are computed. -/
theorem missing_file_aborts_pipeline (fs : String → Option (List RawRow)) :
    (∀ path, fs path = none → data_preparation fs path = none) ∧
    (fs mainCsvPath = none → main_pipeline fs = none) := by
  constructor
  · intro path h
    unfold data_preparation
    rw [h]
  · intro h
    unfold main_pipeline data_preparation
    rw [h]

/-- Witness for C8: the everywhere-empty file system. -/
theorem missing_file_aborts_pipeline_witness :
    data_preparation fsNone mainCsvPath = none ∧ main_pipeline fsNone = none :=
  ⟨(missing_file_aborts_pipeline fsNone).1 mainCsvPath rfl,
   (missing_file_aborts_pipeline fsNone).2 rfl⟩

/-- C9: the loader keeps exactly the input rows with all 8 retained
fields present — the cleaned dataset is the complete rows of the input,
in order, with no missing field (the cleaned row type carries total
fields). -/
theorem loader_keeps_exactly_complete_rows
    (fs : String → Option (List RawRow)) (path : String) (table : List RawRow)
    (h : fs path = some table) :
    data_preparation fs path =
      some ((table.filter RawRow.complete).map RawRow.cleanOfComplete) := by
  unfold data_preparation
  rw [h]
  show some (prepare table) = _
  rw [prepare_eq_filter_complete]

/-- Witness for C9: a table with one complete and one incomplete row
loads to exactly the cleaned complete row. -/
theorem loader_keeps_exactly_complete_rows_witness :
    data_preparation fs9 mainCsvPath = some [clean9] :=
  (loader_keeps_exactly_complete_rows fs9 mainCsvPath table9 rfl).trans (by rfl)

/-- C10: feature engineering preserves length and order, each output row
is the enrichment of the input row at the same index, and that enrichment
leaves the 8 raw fields unchanged while computing the five derived fields
from the same row's raw fields only. -/
theorem feature_engineering_frame_effect (df : List CleanRow) (i : Nat)
    (h : i < df.length) (h2 : i < (feature_engineering df).length) :
    (feature_engineering df).length = df.length ∧
    (feature_engineering df).get ⟨i, h2⟩ = enrich_row (df.get ⟨i, h⟩) ∧
    ∀ r : CleanRow,
      (enrich_row r).country = r.country ∧
      (enrich_row r).year = r.year ∧
      (enrich_row r).population = r.population ∧
      (enrich_row r).gdp = r.gdp ∧
      (enrich_row r).per_capita_gni = r.per_capita_gni ∧
      (enrich_row r).agriculture = r.agriculture ∧
      (enrich_row r).manufacturing = r.manufacturing ∧
      (enrich_row r).transport_comm = r.transport_comm ∧
      (enrich_row r).income_group = classify_income_group r.per_capita_gni ∧
      (enrich_row r).gdp_per_capita = RVal.div (.fin r.gdp) (.fin r.population) ∧
      (enrich_row r).agriculture_share
        = RVal.mul (RVal.div (.fin r.agriculture) (.fin r.gdp)) (.fin 100) ∧
      (enrich_row r).manufacturing_share
        = RVal.mul (RVal.div (.fin r.manufacturing) (.fin r.gdp)) (.fin 100) ∧
      (enrich_row r).transport_comm_share
        = RVal.mul (RVal.div (.fin r.transport_comm) (.fin r.gdp)) (.fin 100) := by
  refine ⟨List.length_map _ _, get_map_eq enrich_row df i h h2, ?_⟩
  intro r
  exact ⟨rfl, rfl, rfl, rfl, rfl, rfl, rfl, rfl, rfl, rfl, rfl, rfl, rfl⟩

/-- Witness for C10 at a one-row dataset. -/
theorem feature_engineering_frame_effect_witness :
    (feature_engineering df10).length = df10.length ∧
    (feature_engineering df10).get ⟨0, by decide⟩
      = enrich_row (df10.get ⟨0, by decide⟩) :=
  ⟨(feature_engineering_frame_effect df10 0 (by decide) (by decide)).1,
   (feature_engineering_frame_effect df10 0 (by decide) (by decide)).2.1⟩

/-- C1 (amended): the cross-sectional OLS fit contains no degeneracy
check — on finite data whose design matrix is singular through exact
collinearity (second regressor twice the first, the spec's own example),
it still returns a coefficient vector, never an error. -/
theorem collinear_design_still_returns_coefficients
    (df : List EnrichedRow) (rows : List PRow)
    (hfin : toPRows df = some rows)
    (_hcol : ∀ r ∈ rows, r.x2 = 2 * r.x1) :
    ∃ m, perform_regression df = some m := by
  unfold perform_regression
  rw [hfin]
  exact ⟨_, rfl⟩

/-- Counterexample to C1 as stated: `df1` has Manufacturing_Share =
2 × Agriculture_Share on every row (a singular design), yet
`perform_regression` returns a coefficient estimate instead of failing. -/
theorem collinear_design_counterexample :
    (∀ r ∈ rows1, r.x2 = 2 * r.x1) ∧
    toPRows df1 = some rows1 ∧
    (perform_regression df1).isSome = true := by
  refine ⟨?_, rfl, ?_⟩
  · intro r hr
    fin_cases hr <;> norm_num [rows1]
  · rw [perform_regression, show toPRows df1 = some rows1 from rfl]
    rfl

/-- Witness for C1 (amended) at the collinear dataset `df1`. -/
theorem collinear_design_witness : ∃ m, perform_regression df1 = some m :=
  collinear_design_still_returns_coefficients df1 rows1 rfl
    (by intro r hr; fin_cases hr <;> norm_num [rows1])

/-- C6: input with duplicate (Country, Year) keys is rejected with the
duplicate-key failure before any fitting work. -/
theorem duplicate_panel_keys_rejected (df : List EnrichedRow)
    (h : ¬ (df.map (fun r => (r.country, r.year))).Nodup) :
    perform_panel_analysis df = .error .duplicatePanelKey := by
  unfold perform_panel_analysis
  rw [if_neg h]

/-- Witness for C6: two observations of "Cc" in year 2000. -/
theorem duplicate_panel_keys_rejected_witness :
    perform_panel_analysis df6 = .error .duplicatePanelKey :=
  duplicate_panel_keys_rejected df6 (by decide)

theorem enrich_r2c_eq : enrich_row r2c = e2c := by
  norm_num [enrich_row, r2c, e2c, classify_income_group, RVal.div, RVal.mul]

/-- C2 (amended): a zero-GDP row raises no error — feature engineering
keeps the row, and its share values follow IEEE division: positive
numerator gives +inf, negative numerator gives -inf, zero numerator gives
NaN. -/
theorem zero_gdp_rows_survive_with_ieee_shares (df : List CleanRow) (r : CleanRow)
    (hmem : r ∈ df) (hg : r.gdp = 0) :
    enrich_row r ∈ feature_engineering df ∧
    (0 < r.agriculture → (enrich_row r).agriculture_share = RVal.inf true) ∧
    (r.agriculture < 0 → (enrich_row r).agriculture_share = RVal.inf false) ∧
    (r.agriculture = 0 → (enrich_row r).agriculture_share = RVal.nan) := by
  refine ⟨List.mem_map_of_mem _ hmem, ?_, ?_, ?_⟩ <;> intro h
  · have hne : r.agriculture ≠ 0 := ne_of_gt h
    norm_num [enrich_row, RVal.div, RVal.mul, hg, hne, h]
  · have hne : r.agriculture ≠ 0 := ne_of_lt h
    have hnl : ¬ (0 < r.agriculture) := not_lt.mpr h.le
    norm_num [enrich_row, RVal.div, RVal.mul, hg, hne, hnl]
  · norm_num [enrich_row, RVal.div, RVal.mul, hg, h]

/-- Counterexample to C2 as stated: on the zero-GDP row `r2c`,
`feature_engineering` returns the enriched row (no error of any kind),
with infinite and NaN share values. -/
theorem zero_gdp_no_error_counterexample :
    r2c.gdp = 0 ∧
    feature_engineering [r2c] = [e2c] ∧
    e2c.agriculture_share = RVal.inf true ∧
    e2c.transport_comm_share = RVal.nan := by
  refine ⟨rfl, ?_, rfl, rfl⟩
  show [enrich_row r2c] = [e2c]
  rw [enrich_r2c_eq]

/-- Witness for C2 (amended) at the concrete row `r2c`. -/
theorem zero_gdp_rows_survive_witness :
    enrich_row r2c ∈ feature_engineering [r2c] ∧
    (enrich_row r2c).agriculture_share = RVal.inf true :=
  ⟨(zero_gdp_rows_survive_with_ieee_shares [r2c] r2c (List.mem_singleton.mpr rfl) rfl).1,
   (zero_gdp_rows_survive_with_ieee_shares [r2c] r2c (List.mem_singleton.mpr rfl) rfl).2.1
     (by norm_num [r2c])⟩

theorem entityRows_filter_of_country_pred (l : List PRow) (p : PRow → Bool)
    (c : String) (hp : ∀ r ∈ l, r.country = c → p r = true) :
    entityRows (l.filter p) c = entityRows l c := by
  unfold entityRows
  rw [List.filter_filter]
  apply List.filter_congr
  intro a ha
  by_cases hc : a.country = c
  · simp [hc, hp a ha hc]
  · simp [hc]

theorem entityCount_keptRows (l : List PRow) (c : String)
    (hc : 2 ≤ entityCount l c) :
    entityCount (keptRows l) c = entityCount l c := by
  unfold entityCount keptRows
  rw [entityRows_filter_of_country_pred]
  intro r _ hrc
  rw [hrc]
  exact decide_eq_true hc

theorem keptRows_idem (l : List PRow) : keptRows (keptRows l) = keptRows l := by
  conv_lhs => rw [keptRows]
  apply List.filter_eq_self.mpr
  intro r hr
  rw [keptRows, List.mem_filter] at hr
  have hc : 2 ≤ entityCount l r.country := of_decide_eq_true hr.2
  rw [entityCount_keptRows l r.country hc]
  exact decide_eq_true hc

theorem entityRows_singleton (l : List PRow) (r : PRow) (hmem : r ∈ l)
    (h1 : entityCount l r.country = 1) : entityRows l r.country = [r] := by
  have hr : r ∈ entityRows l r.country := by simp [entityRows, hmem]
  unfold entityCount at h1
  obtain ⟨a, ha⟩ := List.length_eq_one.mp h1
  rw [ha]
  rw [ha] at hr
  simp at hr
  rw [hr]

/-- C7: on a duplicate-free panel with finite values, the fit succeeds,
its result is unchanged when the single-observation entities are removed
from the input (their observations contribute nothing to the estimation),
and indeed a single-observation entity demeans to identically-zero
response and regressor values. -/
theorem singleton_entities_excluded (df : List EnrichedRow) (rows : List PRow)
    (hkeys : (df.map (fun r => (r.country, r.year))).Nodup)
    (hfin : toPRows df = some rows) :
    perform_panel_analysis df = .ok (panelCore rows) ∧
    panelCore rows = panelCore (keptRows rows) ∧
    ∀ r ∈ rows, entityCount rows r.country = 1 →
      demeanY rows r = 0 ∧ demeanX rows r = [0, 0, 0] := by
  refine ⟨?_, ?_, ?_⟩
  · unfold perform_panel_analysis
    rw [if_pos hkeys, hfin]
  · unfold panelCore
    rw [keptRows_idem]
  · intro r hr h1
    have he := entityRows_singleton rows r hr h1
    constructor
    · simp [demeanY, he, listMean]
    · simp [demeanX, he, listMean]

/-- Witness for C7: a panel with a two-observation entity and a singleton
entity. -/
theorem singleton_entities_excluded_witness :
    perform_panel_analysis df7 = .ok (panelCore rows7) ∧
    panelCore rows7 = panelCore (keptRows rows7) ∧
    ∀ r ∈ rows7, entityCount rows7 r.country = 1 →
      demeanY rows7 r = 0 ∧ demeanX rows7 r = [0, 0, 0] :=
  singleton_entities_excluded df7 rows7 (by decide) rfl

theorem mem_dedupFirstAux {α : Type} [DecidableEq α] (l : List α) :
    ∀ (seen : List α) (a : α), a ∈ dedupFirstAux seen l ↔ (a ∈ l ∧ a ∉ seen) := by
  induction l with
  | nil => intro seen a; simp [dedupFirstAux]
  | cons b t ih =>
    intro seen a
    unfold dedupFirstAux
    by_cases hb : b ∈ seen
    · rw [if_pos hb, ih]
      constructor
      · rintro ⟨ha, hs⟩
        exact ⟨List.mem_cons_of_mem b ha, hs⟩
      · rintro ⟨ha, hs⟩
        refine ⟨?_, hs⟩
        rcases List.mem_cons.mp ha with rfl | ha
        · exact absurd hb hs
        · exact ha
    · rw [if_neg hb]
      by_cases hab : a = b
      · subst hab
        simp [hb]
      · rw [List.mem_cons, ih]
        simp [List.mem_cons, hab]

theorem nodup_dedupFirstAux {α : Type} [DecidableEq α] (l : List α) :
    ∀ seen : List α, (dedupFirstAux seen l).Nodup := by
  induction l with
  | nil => intro seen; simp [dedupFirstAux]
  | cons b t ih =>
    intro seen
    unfold dedupFirstAux
    by_cases hb : b ∈ seen
    · rw [if_pos hb]
      exact ih seen
    · rw [if_neg hb]
      refine List.nodup_cons.mpr ⟨?_, ih (b :: seen)⟩
      intro hmem
      exact ((mem_dedupFirstAux t (b :: seen) b).mp hmem).2 (List.mem_cons_self b seen)

theorem dedupFirstAux_eq_self {α : Type} [DecidableEq α] (l : List α) :
    ∀ seen : List α, l.Nodup → (∀ a ∈ l, a ∉ seen) → dedupFirstAux seen l = l := by
  induction l with
  | nil => intro seen _ _; rfl
  | cons b t ih =>
    intro seen hnd hdisj
    unfold dedupFirstAux
    rw [if_neg (hdisj b (List.mem_cons_self b t))]
    congr 1
    refine ih (b :: seen) (List.nodup_cons.mp hnd).2 ?_
    intro a ha hmem
    rcases List.mem_cons.mp hmem with rfl | hs
    · exact (List.nodup_cons.mp hnd).1 ha
    · exact hdisj a (List.mem_cons_of_mem b ha) hs

theorem filter_pair_eq (m : List (String × String)) (hm : m.Nodup) (c g : String) :
    (m.filter (fun p => decide (p.1 = c))).filter (fun p => decide (p.2 = g)) =
      if (c, g) ∈ m then [(c, g)] else [] := by
  induction m with
  | nil => simp
  | cons p t ih =>
    have hnd := List.nodup_cons.mp hm
    by_cases hp : p = (c, g)
    · subst hp
      simp [List.filter_cons, ih hnd.2, hnd.1]
    · have hps : ¬ ((c, g) = p) := fun h => hp h.symm
      by_cases h1 : p.1 = c
      · by_cases h2 : p.2 = g
        · exact absurd (Prod.ext h1 h2) hp
        · simp [List.filter_cons, h1, h2, ih hnd.2, hps]
      · simp [List.filter_cons, h1, ih hnd.2, hps]

theorem flatMap_if_singleton {α : Type} (l : List α) (P : α → Prop) [DecidablePred P] :
    l.flatMap (fun a => if P a then [a] else []) = l.filter (fun a => decide (P a)) := by
  induction l with
  | nil => rfl
  | cons a t ih =>
    rw [List.flatMap_cons, List.filter_cons, ih]
    by_cases h : P a
    · simp [h]
    · simp [h]

theorem dedupFirstAux_filter_fst {β : Type} [DecidableEq β] (c : String)
    (l : List (String × β)) :
    ∀ (seenP : List (String × β)) (seenL : List β),
      (∀ g : β, (c, g) ∈ seenP ↔ g ∈ seenL) →
      (dedupFirstAux seenP l).filter (fun p => decide (p.1 = c)) =
        (dedupFirstAux seenL ((l.filter (fun p => decide (p.1 = c))).map (·.2))).map
          (fun g => (c, g)) := by
  induction l with
  | nil => intro seenP seenL _; rfl
  | cons p t ih =>
    intro seenP seenL hinv
    obtain ⟨c', g⟩ := p
    by_cases hc : c' = c
    · subst hc
      rw [dedupFirstAux]
      have hfc : ((c', g) :: t).filter (fun p => decide (p.1 = c')) =
          (c', g) :: t.filter (fun p => decide (p.1 = c')) := by simp
      rw [hfc, List.map_cons, dedupFirstAux]
      by_cases hmem : (c', g) ∈ seenP
      · rw [if_pos hmem, if_pos ((hinv g).mp hmem)]
        exact ih seenP seenL hinv
      · rw [if_neg hmem, if_neg (fun h => hmem ((hinv g).mpr h))]
        have hstep : ((c', g) :: dedupFirstAux ((c', g) :: seenP) t).filter
            (fun p => decide (p.1 = c')) =
            (c', g) :: (dedupFirstAux ((c', g) :: seenP) t).filter
              (fun p => decide (p.1 = c')) := by simp
        rw [hstep, List.map_cons]
        congr 1
        refine ih ((c', g) :: seenP) (g :: seenL) ?_
        intro g'
        constructor
        · intro h
          rcases List.mem_cons.mp h with heq | hin
          · rw [Prod.mk.injEq] at heq
            exact List.mem_cons.mpr (Or.inl heq.2)
          · exact List.mem_cons_of_mem g ((hinv g').mp hin)
        · intro h
          rcases List.mem_cons.mp h with rfl | hin
          · exact List.mem_cons_self _ _
          · exact List.mem_cons_of_mem _ ((hinv g').mpr hin)
    · rw [dedupFirstAux]
      have hfc : ((c', g) :: t).filter (fun p => decide (p.1 = c)) =
          t.filter (fun p => decide (p.1 = c)) := by simp [hc]
      rw [hfc]
      by_cases hmem : (c', g) ∈ seenP
      · rw [if_pos hmem]
        exact ih seenP seenL hinv
      · rw [if_neg hmem]
        have hstep : ((c', g) :: dedupFirstAux ((c', g) :: seenP) t).filter
            (fun p => decide (p.1 = c)) =
            (dedupFirstAux ((c', g) :: seenP) t).filter (fun p => decide (p.1 = c)) := by
          simp [hc]
        rw [hstep]
        refine ih ((c', g) :: seenP) seenL ?_
        intro g'
        rw [List.mem_cons]
        constructor
        · rintro (heq | hin)
          · rw [Prod.mk.injEq] at heq
            exact absurd heq.1.symm hc
          · exact (hinv g').mp hin
        · intro h
          exact Or.inr ((hinv g').mpr h)

theorem filter_flatMap_eq {α β : Type} (l : List α) (f : α → List β) (p : β → Bool) :
    (l.flatMap f).filter p = l.flatMap (fun a => (f a).filter p) := by
  induction l with
  | nil => rfl
  | cons a t ih =>
    rw [List.flatMap_cons, List.flatMap_cons, List.filter_append, ih]

theorem countriesSorted_nodup (df : List EnrichedRow) : (countriesSorted df).Nodup :=
  (List.perm_insertionSort (· ≤ ·) _).nodup_iff.mpr (nodup_dedupFirstAux _ [])

theorem countriesSorted_pairwise_lt (df : List EnrichedRow) :
    List.Pairwise (· < ·) (countriesSorted df) := by
  have hs : List.Sorted (· ≤ ·) (countriesSorted df) :=
    List.sorted_insertionSort (· ≤ ·) _
  exact (hs.and (countriesSorted_nodup df)).imp
    (fun h => lt_of_le_of_ne h.1 h.2)

theorem comparable_countries_nodup (df : List EnrichedRow) :
    (comparable_countries df).Nodup :=
  (countriesSorted_nodup df).filter _

theorem comparable_countries_pairwise_lt (df : List EnrichedRow) :
    List.Pairwise (· < ·) (comparable_countries df) :=
  (countriesSorted_pairwise_lt df).filter _

theorem comparable_countries_band (df : List EnrichedRow) (c : String)
    (hc : c ∈ comparable_countries df) :
    10000000 ≤ meanPop df c ∧ meanPop df c ≤ 50000000 := by
  unfold comparable_countries at hc
  exact of_decide_eq_true (List.mem_filter.mp hc).2

theorem country_income_map_nodup (df : List EnrichedRow) :
    (country_income_map df).Nodup :=
  nodup_dedupFirstAux _ []

theorem group_countries_eq (df : List EnrichedRow) (g : String) :
    group_countries df g =
      (comparable_countries df).filter
        (fun c => decide ((c, g) ∈ country_income_map df)) := by
  unfold group_countries merged_countries
  rw [filter_flatMap_eq, List.map_flatMap]
  have hmap : ∀ c : String,
      ((((country_income_map df).filter (fun p => decide (p.1 = c))).filter
        (fun p => decide (p.2 = g))).map (·.1)) =
      (if (c, g) ∈ country_income_map df then [c] else []) := by
    intro c
    rw [filter_pair_eq (country_income_map df) (country_income_map_nodup df) c g]
    by_cases h : (c, g) ∈ country_income_map df
    · rw [if_pos h, if_pos h]
      rfl
    · rw [if_neg h, if_neg h]
      rfl
  rw [List.flatMap_congr (fun c _ => hmap c), flatMap_if_singleton]
  exact dedupFirstAux_eq_self _ []
    ((comparable_countries_nodup df).filter _) (fun a _ => List.not_mem_nil a)

theorem group_countries_sub_comparable (df : List EnrichedRow) (g c : String)
    (hc : c ∈ group_countries df g) : c ∈ comparable_countries df := by
  rw [group_countries_eq] at hc
  exact (List.mem_filter.mp hc).1

/-- C4 (amended): the selector's country-to-income-group mapping keeps the
first occurrence of each distinct (Country, Income_Group) pair, so a
retained country is associated with the list of all distinct labels it
carries, in first-encountered row order — not with a single
representative label.  Only a country carrying one label throughout gets
exactly that label. -/
theorem country_labels_are_first_seen_distinct (df : List EnrichedRow) (c : String) :
    ((country_income_map df).filter (fun p => decide (p.1 = c))).map (·.2) =
      dedupFirstAux []
        ((df.filter (fun r => decide (r.country = c))).map (·.income_group)) := by
  unfold country_income_map
  rw [dedupFirstAux_filter_fst c _ [] [] (fun g => by simp)]
  rw [List.map_map]
  have hcomp : ((·.2) ∘ fun g : String => (c, g)) = id := by
    funext g
    rfl
  rw [hcomp, List.map_id]
  have hXY : (((df.map (fun r => (r.country, r.income_group))).filter
        (fun p => decide (p.1 = c))).map (·.2)) =
      ((df.filter (fun r => decide (r.country = c))).map (·.income_group)) := by
    rw [List.filter_map, List.map_map]
    rfl
  rw [hXY]

theorem group_countries_pairwise_lt (df : List EnrichedRow) (g : String) :
    List.Pairwise (· < ·) (group_countries df g) := by
  rw [group_countries_eq]
  exact (comparable_countries_pairwise_lt df).filter _

/-- C5 (amended): every selected country has mean population in the
closed band [10000000, 50000000]; each income group contributes at most 3
countries, listed in ascending alphabetical country order (the pandas
groupby order, not first-encountered order); groups are concatenated in
the fixed priority order with empty groups contributing nothing; the
result has at most 12 entries — but a country carrying different labels
in different years may appear once per label, so repeats are possible. -/
theorem get_comparable_countries_spec (df : List EnrichedRow) :
    get_comparable_countries df =
      (income_group_order.map (fun g => (group_countries df g).take 3)).flatten ∧
    (∀ c ∈ get_comparable_countries df,
        10000000 ≤ meanPop df c ∧ meanPop df c ≤ 50000000) ∧
    (∀ g : String, ((group_countries df g).take 3).length ≤ 3 ∧
        List.Pairwise (· < ·) ((group_countries df g).take 3)) ∧
    (get_comparable_countries df).length ≤ 12 := by
  refine ⟨rfl, ?_, ?_, ?_⟩
  · intro c hc
    unfold get_comparable_countries at hc
    rw [List.mem_flatMap] at hc
    obtain ⟨g, _, hcg⟩ := hc
    have hmem : c ∈ group_countries df g := (List.take_sublist 3 _).subset hcg
    exact comparable_countries_band df c (group_countries_sub_comparable df g c hmem)
  · intro g
    exact ⟨List.length_take_le 3 _, (group_countries_pairwise_lt df g).take⟩
  · have h1 := List.length_take_le 3 (group_countries df "High income")
    have h2 := List.length_take_le 3 (group_countries df "Upper middle income")
    have h3 := List.length_take_le 3 (group_countries df "Lower middle income")
    have h4 := List.length_take_le 3 (group_countries df "Low income")
    unfold get_comparable_countries income_group_order
    simp only [List.flatMap_cons, List.flatMap_nil, List.length_append,
      List.length_nil]
    omega

theorem eval_cs_df4 : countriesSorted df4 = ["Aaa"] := by
  show List.insertionSort (· ≤ ·) (dedupFirstAux [] (df4.map (·.country))) = ["Aaa"]
  rw [show dedupFirstAux [] (df4.map (·.country)) = ["Aaa"] from by decide]
  rfl

theorem eval_mp_df4 : meanPop df4 "Aaa" = 20000000 := by
  rw [meanPop, show (df4.filter (fun r => decide (r.country = "Aaa"))).map (·.population)
      = [20000000, 20000000] from by decide]
  norm_num [listMean]

theorem eval_cc_df4 : comparable_countries df4 = ["Aaa"] := by
  have hA : 10000000 ≤ meanPop df4 "Aaa" ∧ meanPop df4 "Aaa" ≤ 50000000 := by
    rw [eval_mp_df4]
    norm_num
  rw [comparable_countries, eval_cs_df4, List.filter_cons, List.filter_nil,
    decide_eq_true hA]
  rfl

theorem eval_cim_df4 : country_income_map df4 =
    [("Aaa", "High income"), ("Aaa", "Upper middle income")] := by decide

theorem eval_select_df4 : get_comparable_countries df4 = ["Aaa", "Aaa"] := by
  have hmc : merged_countries df4 =
      [("Aaa", "High income"), ("Aaa", "Upper middle income")] := by
    rw [merged_countries, eval_cc_df4, eval_cim_df4]
    decide
  rw [get_comparable_countries, income_group_order]
  rw [List.flatMap_cons, List.flatMap_cons, List.flatMap_cons, List.flatMap_cons,
    List.flatMap_nil]
  rw [show group_countries df4 "High income" = ["Aaa"] from by
    rw [group_countries, hmc]; decide]
  rw [show group_countries df4 "Upper middle income" = ["Aaa"] from by
    rw [group_countries, hmc]; decide]
  rw [show group_countries df4 "Lower middle income" = [] from by
    rw [group_countries, hmc]; decide]
  rw [show group_countries df4 "Low income" = [] from by
    rw [group_countries, hmc]; decide]
  rfl

/-- Counterexample to C4 as stated: in `df4` the single retained country
"Aaa" carries two income labels; the selector's de-duplication keeps both
pairs — there is no single representative first-seen label — and "Aaa" is
consequently selected once under each label. -/
theorem first_seen_label_policy_counterexample :
    country_income_map df4 =
      [("Aaa", "High income"), ("Aaa", "Upper middle income")] ∧
    get_comparable_countries df4 = ["Aaa", "Aaa"] :=
  ⟨eval_cim_df4, eval_select_df4⟩

theorem eval_cs_df5 : countriesSorted df5 = ["Aa", "Bb"] := by
  show List.insertionSort (· ≤ ·) (dedupFirstAux [] (df5.map (·.country))) = ["Aa", "Bb"]
  rw [show dedupFirstAux [] (df5.map (·.country)) = ["Bb", "Aa"] from by decide]
  simp [List.insertionSort, List.orderedInsert]
  decide

theorem eval_mp_df5_Aa : meanPop df5 "Aa" = 20000000 := by
  rw [meanPop, show (df5.filter (fun r => decide (r.country = "Aa"))).map (·.population)
      = [20000000, 20000000] from by decide]
  norm_num [listMean]

theorem eval_mp_df5_Bb : meanPop df5 "Bb" = 20000000 := by
  rw [meanPop, show (df5.filter (fun r => decide (r.country = "Bb"))).map (·.population)
      = [20000000] from by decide]
  norm_num [listMean]

theorem eval_cc_df5 : comparable_countries df5 = ["Aa", "Bb"] := by
  have hA : 10000000 ≤ meanPop df5 "Aa" ∧ meanPop df5 "Aa" ≤ 50000000 := by
    rw [eval_mp_df5_Aa]
    norm_num
  have hB : 10000000 ≤ meanPop df5 "Bb" ∧ meanPop df5 "Bb" ≤ 50000000 := by
    rw [eval_mp_df5_Bb]
    norm_num
  rw [comparable_countries, eval_cs_df5, List.filter_cons, List.filter_cons,
    List.filter_nil, decide_eq_true hA, decide_eq_true hB]
  rfl

theorem eval_cim_df5 : country_income_map df5 =
    [("Bb", "High income"), ("Aa", "High income"), ("Aa", "Upper middle income")] := by
  decide

theorem eval_select_df5 : get_comparable_countries df5 = ["Aa", "Bb", "Aa"] := by
  have hmc : merged_countries df5 =
      [("Aa", "High income"), ("Aa", "Upper middle income"), ("Bb", "High income")] := by
    rw [merged_countries, eval_cc_df5, eval_cim_df5]
    decide
  rw [get_comparable_countries, income_group_order]
  rw [List.flatMap_cons, List.flatMap_cons, List.flatMap_cons, List.flatMap_cons,
    List.flatMap_nil]
  rw [show group_countries df5 "High income" = ["Aa", "Bb"] from by
    rw [group_countries, hmc]; decide]
  rw [show group_countries df5 "Upper middle income" = ["Aa"] from by
    rw [group_countries, hmc]; decide]
  rw [show group_countries df5 "Lower middle income" = [] from by
    rw [group_countries, hmc]; decide]
  rw [show group_countries df5 "Low income" = [] from by
    rw [group_countries, hmc]; decide]
  rfl

/-- Counterexample to C5 as stated: in `df5` the first-encountered country
order is ["Bb", "Aa"], yet the selector returns ["Aa", "Bb", "Aa"]:
countries are taken in alphabetical (groupby-sorted) order within each
group, and "Aa" — which carries labels in two groups — appears twice. -/
theorem selection_order_and_duplicates_counterexample :
    get_comparable_countries df5 = ["Aa", "Bb", "Aa"] ∧
    dedupFirstAux [] (df5.map (·.country)) = ["Bb", "Aa"] ∧
    ¬ (get_comparable_countries df5).Nodup := by
  refine ⟨eval_select_df5, by decide, ?_⟩
  rw [eval_select_df5]
  decide

/-- Witness for C5 (amended) at `df5`: band membership for the selected
country "Aa", the 12-entry bound, and sortedness of the first group. -/
theorem get_comparable_countries_spec_witness :
    (10000000 ≤ meanPop df5 "Aa" ∧ meanPop df5 "Aa" ≤ 50000000) ∧
    (get_comparable_countries df5).length ≤ 12 ∧
    List.Pairwise (· < ·) ((group_countries df5 "High income").take 3) :=
  ⟨(get_comparable_countries_spec df5).2.1 "Aa" (by rw [eval_select_df5]; decide),
   (get_comparable_countries_spec df5).2.2.2,
   ((get_comparable_countries_spec df5).2.2.1 "High income").2⟩
